import Mathlib

/-!
Verification of the clorm mapping layer (clorm/base.py) against its
natural-language specification.

The development shallowly embeds the Python source:
* Python runtime values that can appear as field values are `PyObj`;
  serialized (database-facing) values are `PyVal`.
* Exceptions are modelled by `Except PyErr`.
* `Field.serialize`, `Condition.stringify`, `Query.filter` / `limit` /
  `order_by`, `Model.__new__` / construction, `Model.load`, `Model.create`,
  `Model.delete_instance` and `Field.get_resolved_type` are translated
  function by function from clorm/base.py; `ADTField` is translated from
  tests/test_clorm.py.
-/

namespace Clorm

/-- Serialized (database-facing) values: what clorm hands to sqlite as
statement parameters or stores in an instance shadow (`_clorm_data`). -/
inductive PyVal where
  | vnone
  | vint (i : Int)
  | vbool (b : Bool)
  | vstr (s : String)
deriving Repr, DecidableEq

/-- Python runtime values that occur as field values in this repository:
None, ints, bools, strings, enum members (carrying their `.value`, always an
int for the enums in this code base) and model instances (carrying their
`.id`). -/
inductive PyObj where
  | pnone
  | pint (i : Int)
  | pbool (b : Bool)
  | pstr (s : String)
  | penum (v : Int)
  | pmodel (id : Int)
deriving Repr, DecidableEq

/-- Resolved `type_object`s of fields as they occur in this repository:
int, bool, str, an enum.Enum subclass, or a Model subclass. -/
inductive PyType where
  | tint
  | tbool
  | tstr
  | tenum
  | tmodel
deriving Repr, DecidableEq

/-- Exception classes raised by the embedded code paths. -/
inductive PyErr where
  | typeError
  | valueError
  | doesNotExist
deriving Repr, DecidableEq

/-- `isinstance(value, type_object)` for the value/type universes above.
Note that in Python `bool` is a subclass of `int`, so a bool is an instance
of `int`. Enum members and model instances are instances only of their own
classes. -/
def isinstance : PyObj → PyType → Bool
  | .pint _, .tint => true
  | .pbool _, .tint => true
  | .pbool _, .tbool => true
  | .pstr _, .tstr => true
  | .penum _, .tenum => true
  | .pmodel _, .tmodel => true
  | _, _ => false

/-- A field accessor with its resolved type information: column name
(`self.name`), resolved `type_object`, `allow_none` flag, and declared
default (`None` when absent, as in the source). -/
structure Field where
  name : String
  ty : PyType
  allow_none : Bool
  default : PyObj
deriving Repr, DecidableEq

/-- Field.serialize (base.py lines 264-275):
if `allow_none` and the value is None, store None; otherwise the value must
be an instance of the resolved type object or a TypeError is raised; enum
members store their `.value`, model references store their `.id`, anything
else is stored as-is. The match arms marked unreachable cannot fire because
the isinstance check has already passed. -/
def Field.serialize (f : Field) (value : PyObj) : Except PyErr PyVal :=
  if f.allow_none ∧ value = .pnone then .ok .vnone
  else if ¬ isinstance value f.ty then .error .typeError
  else if f.ty = .tenum then
    match value with
    | .penum v => .ok (.vint v)
    | _ => .error .typeError
  else if f.ty = .tmodel then
    match value with
    | .pmodel i => .ok (.vint i)
    | _ => .error .typeError
  else
    match value with
    | .pint i => .ok (.vint i)
    | .pbool b => .ok (.vbool b)
    | .pstr s => .ok (.vstr s)
    | _ => .error .typeError

/-- The comparison operators of Comparison.operator
(base.py line 97: Literal of the six comparisons plus INSTR). -/
inductive CmpOp where
  | lt
  | le
  | gt
  | ge
  | eq
  | ne
  | instr
deriving Repr, DecidableEq

/-- The operator's spelling inside SQL text. -/
def CmpOp.toStr : CmpOp → String
  | .lt => "<"
  | .le => "<="
  | .gt => ">"
  | .ge => ">="
  | .eq => "="
  | .ne => "!="
  | .instr => "INSTR"

/-- The Condition expression tree (base.py lines 83-148): comparisons,
disjunction, negation, and the membership test Contains. -/
inductive Condition where
  | cmp (left : Field) (operator : CmpOp) (right : PyObj)
  | orCond (left : Condition) (right : Condition)
  | notCond (cond : Condition)
  | contains (left : Field) (positive : Bool) (values : List PyObj)
deriving Repr, DecidableEq

/-- Condition.stringify, dispatching as the subclass methods do
(Comparison.stringify lines 100-115, OrCondition lines 123-126,
NotCondition lines 133-135, Contains lines 144-148). -/
def Condition.stringify : Condition → Except PyErr (String × List PyVal)
  | .cmp left op right =>
    if right = .pnone then
      match op with
      | .eq => .ok ("(" ++ left.name ++ " IS NULL)", [])
      | .ne => .ok ("(" ++ left.name ++ " IS NOT NULL)", [])
      | _ => .error .typeError
    else do
      let r ← left.serialize right
      match op with
      | .instr => pure ("INSTR(" ++ left.name ++ ", ?)", [r])
      | _ => pure ("(" ++ left.name ++ " " ++ op.toStr ++ " ?)", [r])
  | .orCond l r => do
    let lp ← l.stringify
    let rp ← r.stringify
    pure ("(" ++ lp.1 ++ " OR " ++ rp.1 ++ ")", lp.2 ++ rp.2)
  | .notCond c => do
    let p ← c.stringify
    pure ("NOT " ++ p.1, p.2)
  | .contains left positive values => do
    let vals ← values.mapM left.serialize
    let placeholders := String.intercalate ", " (values.map (fun _ => "?"))
    let cond := if positive then "IN" else "NOT IN"
    pure ("(" ++ left.name ++ " " ++ cond ++ " (" ++ placeholders ++ "))", vals)

/-- Field.is_in (base.py lines 385-386). -/
def Field.is_in (f : Field) (other : List PyObj) : Condition :=
  .contains f true other

/-- Field.is_not_in as written in the source (base.py lines 388-389): it
passes positive := true, exactly like is_in. -/
def Field.is_not_in (f : Field) (other : List PyObj) : Condition :=
  .contains f true other

/-- Claim C1 (code bug evaluation): for the string field named name and the
single-member list containing Talpa, is_in stringifies to an IN condition
with one placeholder and one parameter as the claim states, but is_not_in
stringifies to the very same IN condition rather than a NOT IN condition,
because Field.is_not_in passes positive := true. -/
theorem is_not_in_emits_in_not_not_in :
    (Field.is_in ⟨"name", .tstr, false, .pnone⟩ [.pstr "Talpa"]).stringify
      = .ok ("(name IN (?))", [.vstr "Talpa"])
    ∧ (Field.is_not_in ⟨"name", .tstr, false, .pnone⟩ [.pstr "Talpa"]).stringify
      = .ok ("(name IN (?))", [.vstr "Talpa"])
    ∧ (Field.is_not_in ⟨"name", .tstr, false, .pnone⟩ [.pstr "Talpa"]).stringify
      ≠ .ok ("(name NOT IN (?))", [.vstr "Talpa"]) :=
  ⟨rfl, rfl, fun h => absurd (Except.ok.inj h) (by decide)⟩

/-- Claim C2: comparing a field against None lowers equality to IS NULL and
inequality to IS NOT NULL, both with an empty parameter list, and every
other comparison operator applied to a None operand raises TypeError at
stringify time. -/
theorem comparison_null_lowering (f : Field) :
    (Condition.cmp f .eq .pnone).stringify = .ok ("(" ++ f.name ++ " IS NULL)", [])
    ∧ (Condition.cmp f .ne .pnone).stringify = .ok ("(" ++ f.name ++ " IS NOT NULL)", [])
    ∧ (Condition.cmp f .lt .pnone).stringify = .error .typeError
    ∧ (Condition.cmp f .le .pnone).stringify = .error .typeError
    ∧ (Condition.cmp f .gt .pnone).stringify = .error .typeError
    ∧ (Condition.cmp f .ge .pnone).stringify = .error .typeError
    ∧ (Condition.cmp f .instr .pnone).stringify = .error .typeError := by
  refine ⟨?_, ?_, ?_, ?_, ?_, ?_, ?_⟩ <;> simp [Condition.stringify]

/-- An OrderBy sort key (base.py lines 151-158). -/
structure OrderBy where
  field : Field
  ascending : Bool
deriving Repr, DecidableEq

/-- OrderBy.stringify (base.py lines 156-158). -/
def OrderBy.stringify (o : OrderBy) : String :=
  o.field.name ++ " " ++ (if o.ascending then "ASC" else "DESC")

/-- The Query dataclass (base.py lines 164-169). The model class is
represented by its clorm_table_name, the only datum of it the builder and
stringify consult. -/
structure Query where
  table : String
  conditions : List Condition
  order_by_columns : List OrderBy
  limit_clause : Option Int
deriving Repr, DecidableEq

/-- Query.filter (base.py lines 171-172): dataclasses.replace with
conditions extended by the new ones. -/
def Query.filter (q : Query) (conds : List Condition) : Query :=
  { q with conditions := q.conditions ++ conds }

/-- Query.limit (base.py lines 174-175): dataclasses.replace with
limit_clause set. -/
def Query.limit (q : Query) (l : Int) : Query :=
  { q with limit_clause := some l }

/-- Query.order_by (base.py lines 177-180): dataclasses.replace with
order_by_columns extended by the new ones. -/
def Query.order_by (q : Query) (orders : List OrderBy) : Query :=
  { q with order_by_columns := q.order_by_columns ++ orders }

/-- Query.stringify (base.py lines 182-196). -/
def Query.stringify (q : Query) (columns : String) : Except PyErr (String × List PyVal) := do
  let base := "SELECT " ++ columns ++ " FROM " ++ q.table
  let (withWhere, params) ←
    if q.conditions ≠ [] then do
      let pairs ← q.conditions.mapM Condition.stringify
      let whereText := String.intercalate " AND " (pairs.map (·.1))
      pure (base ++ " WHERE " ++ whereText, pairs.flatMap (·.2))
    else pure (base, [])
  let withOrder :=
    if q.order_by_columns ≠ [] then
      withWhere ++ " ORDER BY " ++
        String.intercalate ", " (q.order_by_columns.map OrderBy.stringify)
    else withWhere
  match q.limit_clause with
  | some l => pure (withOrder ++ " LIMIT ?", params ++ [.vint l])
  | none => pure (withOrder, params)

/-- Claim C5: each builder method produces a new Query that differs from
the receiver only in the one component it extends or sets; the receiver is
a value that the methods only read (dataclasses.replace), so the original
Query is unchanged by calling them. -/
theorem query_builders_frame (q : Query) (conds : List Condition)
    (orders : List OrderBy) (l : Int) :
    (q.filter conds).table = q.table
    ∧ (q.filter conds).conditions = q.conditions ++ conds
    ∧ (q.filter conds).order_by_columns = q.order_by_columns
    ∧ (q.filter conds).limit_clause = q.limit_clause
    ∧ (q.limit l).table = q.table
    ∧ (q.limit l).conditions = q.conditions
    ∧ (q.limit l).order_by_columns = q.order_by_columns
    ∧ (q.limit l).limit_clause = some l
    ∧ (q.order_by orders).table = q.table
    ∧ (q.order_by orders).conditions = q.conditions
    ∧ (q.order_by orders).order_by_columns = q.order_by_columns ++ orders
    ∧ (q.order_by orders).limit_clause = q.limit_clause :=
  ⟨rfl, rfl, rfl, rfl, rfl, rfl, rfl, rfl, rfl, rfl, rfl, rfl⟩

/-- Association-list get, modelling dict and WeakValueDictionary lookup. -/
def assocGet {α β : Type} [DecidableEq α] : List (α × β) → α → Option β
  | [], _ => none
  | p :: rest, k => if p.1 = k then some p.2 else assocGet rest k

/-- Association-list set, modelling dict item assignment: replaces the
value in place if the key is present (dicts keep insertion order),
otherwise appends the new binding. -/
def assocSet {α β : Type} [DecidableEq α] : List (α × β) → α → β → List (α × β)
  | [], k, v => [(k, v)]
  | p :: rest, k, v => if p.1 = k then (k, v) :: rest else p :: assocSet rest k v

/-- Association-list key removal, modelling dict.pop(k). -/
def assocPop {α β : Type} [DecidableEq α] : List (α × β) → α → List (α × β)
  | [], _ => []
  | p :: rest, k => if p.1 = k then assocPop rest k else p :: assocPop rest k

/-- An instance's `_clorm_data` mapping (the shadow of its row). -/
abbrev Shadow := List (String × PyVal)

/-- dict.update: fold the new bindings into the mapping, left to right. -/
def dictUpdate (d : Shadow) (kvs : Shadow) : Shadow :=
  kvs.foldl (fun acc p => assocSet acc p.1 p.2) d

/-- The dict display of Model.__init__ (base.py line 455):
the fresh `_clorm_data` value, with id first and kwargs merged over it. -/
def initData (id : Int) (kwargs : Shadow) : Shadow :=
  dictUpdate [("id", .vint id)] kwargs

/-- The in-memory state of one model class: a heap of instances addressed
by reference (Python object identity), the `_clorm_instance_cache` mapping
primary keys to (weakly held, hence live) instance references, and the next
fresh reference. -/
structure MState where
  heap : List (Nat × Shadow)
  cache : List (Int × Nat)
  nextRef : Nat
deriving Repr, DecidableEq

/-- Model.__new__ (base.py lines 457-465): if the id is cached, merge the
kwargs into the cached instance's `_clorm_data` and return that instance;
otherwise allocate a fresh instance, run `__init__` on it, and register it
in the instance cache. -/
def Model.new (st : MState) (id : Int) (kwargs : Shadow) : Nat × MState :=
  match assocGet st.cache id with
  | some ref =>
    let data := (assocGet st.heap ref).getD []
    (ref, { st with heap := assocSet st.heap ref (dictUpdate data kwargs) })
  | none =>
    let ref := st.nextRef
    (ref, { heap := assocSet st.heap ref (initData id kwargs),
            cache := assocSet st.cache id ref,
            nextRef := ref + 1 })

/-- One construction call `cls(id, **kwargs)`. Python's call protocol runs
`cls.__new__` and then, because `__new__` returned an instance of cls, runs
`__init__(id, **kwargs)` on the returned instance — also when that instance
came from the cache — which rebinds its `_clorm_data` to the fresh dict
`{"id": id, **kwargs}` (base.py lines 454-455). -/
def Model.construct (st : MState) (id : Int) (kwargs : Shadow) : Nat × MState :=
  let (ref, st1) := Model.new st id kwargs
  (ref, { st1 with heap := assocSet st1.heap ref (initData id kwargs) })

/-- Claim C3 (code bug evaluation): with a live cached instance for key 1
whose shadow holds id and a loaded name, a construction call for key 1 with
no attributes returns the identical instance (reference 0), as the claim
states, but its shadow afterwards is exactly the reset dict containing only
the id: the merge performed inside `__new__` is clobbered when Python
re-runs `__init__` on the returned instance, so the previously loaded name
is dropped instead of being preserved by a merge. -/
theorem construct_resets_cached_shadow :
    (Model.construct
        ⟨[(0, [("id", .vint 1), ("name", .vstr "Neurotrichus")])], [(1, 0)], 1⟩
        1 []).1 = 0
    ∧ (Model.construct
        ⟨[(0, [("id", .vint 1), ("name", .vstr "Neurotrichus")])], [(1, 0)], 1⟩
        1 []).2
      = ⟨[(0, [("id", .vint 1)])], [(1, 0)], 1⟩ := by
  refine ⟨rfl, by decide⟩

/-- The rows of the model's table, each a name-to-value mapping as returned
by the sqlite3.Row factory. -/
abbrev DBTable := List Shadow

/-- Clorm.select_one specialized to the SELECT-by-id query that load
issues: the first row whose id column equals the given key. -/
def select_one (db : DBTable) (idv : PyVal) : Option Shadow :=
  db.find? (fun row => assocGet row "id" = some idv)

/-- Model.load (base.py lines 467-472): fetch the full row by primary key;
raise DoesNotExist if absent, otherwise merge the row into `_clorm_data`.
The function returns the outcome together with the shadow after the call. -/
def Model.load (db : DBTable) (shadow : Shadow) : Except PyErr Unit × Shadow :=
  match select_one db ((assocGet shadow "id").getD .vnone) with
  | none => (.error .doesNotExist, shadow)
  | some row => (.ok (), dictUpdate shadow row)

/-- Claim C8: when no backing row exists for the instance's primary key,
load raises DoesNotExist and the shadow after the failed call is exactly
the shadow before it. -/
theorem load_not_found (db : DBTable) (shadow : Shadow)
    (h : select_one db ((assocGet shadow "id").getD .vnone) = none) :
    Model.load db shadow = (.error .doesNotExist, shadow) := by
  simp [Model.load, h]

/-- Witness for load_not_found: an empty table and a shadow holding only
the key. -/
theorem load_not_found_witness :
    Model.load [] [("id", .vint 1)] = (.error .doesNotExist, [("id", .vint 1)]) :=
  load_not_found [] [("id", .vint 1)] rfl

/-- Model.delete_instance (base.py lines 500-502): executes one DELETE by
primary key and touches nothing else. The result is the in-memory state
after the call, the table after the delete, and the list of statements
executed during the call. -/
def Model.delete_instance (table : String) (st : MState) (db : DBTable)
    (ref : Nat) : MState × DBTable × List (String × List PyVal) :=
  let shadow := (assocGet st.heap ref).getD []
  let idv := (assocGet shadow "id").getD .vnone
  (st, db.filter (fun row => assocGet row "id" ≠ some idv),
    [("DELETE FROM " ++ table ++ " WHERE id = ?", [idv])])

/-- Claim C9: delete_instance executes exactly one delete-by-primary-key
statement and changes nothing in memory: the identity cache entry is not
evicted, every instance shadow is unchanged, and a construction call for
the same key afterwards still returns the identical instance. -/
theorem delete_instance_frame (table : String) (st : MState) (db : DBTable)
    (ref : Nat) (id : Int) (h : assocGet st.cache id = some ref) :
    (Model.delete_instance table st db ref).1 = st
    ∧ (Model.delete_instance table st db ref).2.2
      = [("DELETE FROM " ++ table ++ " WHERE id = ?",
          [(assocGet ((assocGet st.heap ref).getD []) "id").getD .vnone])]
    ∧ (Model.construct (Model.delete_instance table st db ref).1 id []).1 = ref := by
  refine ⟨rfl, rfl, ?_⟩
  simp [Model.delete_instance, Model.construct, Model.new, h]

/-- Witness for delete_instance_frame: one live cached instance for key 7. -/
theorem delete_instance_frame_witness :
    (Model.delete_instance "taxon" ⟨[(0, [("id", .vint 7)])], [(7, 0)], 1⟩ [] 0).1
      = ⟨[(0, [("id", .vint 7)])], [(7, 0)], 1⟩
    ∧ (Model.delete_instance "taxon" ⟨[(0, [("id", .vint 7)])], [(7, 0)], 1⟩ [] 0).2.2
      = [("DELETE FROM taxon WHERE id = ?",
          [(assocGet ((assocGet (⟨[(0, [("id", .vint 7)])], [(7, 0)], 1⟩ : MState).heap 0).getD []) "id").getD .vnone])]
    ∧ (Model.construct
        (Model.delete_instance "taxon" ⟨[(0, [("id", .vint 7)])], [(7, 0)], 1⟩ [] 0).1
        7 []).1 = 0 :=
  delete_instance_frame "taxon" ⟨[(0, [("id", .vint 7)])], [(7, 0)], 1⟩ [] 0 7 rfl

/-- Field.serialize raises only TypeError. -/
theorem Field.serialize_error {f : Field} {v : PyObj} {e : PyErr}
    (h : f.serialize v = .error e) : e = .typeError := by
  obtain ⟨n, ty, an, d⟩ := f
  cases ty <;> cases v <;> cases an <;>
    simp [Field.serialize, isinstance] at h <;> exact h.symm

/-- isinstance of None is false for every resolved field type in this
repository (none of the repository's fields is declared NoneType). -/
theorem isinstance_pnone (t : PyType) : isinstance .pnone t = false := by
  cases t <;> rfl

/-- The field loop of Model.create (base.py lines 476-487): walk the
declared accessors in order; take the supplied value (popping it from the
kwargs) or the default, skipping the column entirely when the default is
None and the field disallows None; serialize each taken value. Returns the
column names, the parameters, and the kwargs left over after the pops. -/
def createLoop : List (String × Field) → List (String × PyObj) →
    Except PyErr (List String × List PyVal × List (String × PyObj))
  | [], kwargs => .ok ([], [], kwargs)
  | (attr, f) :: rest, kwargs =>
    match assocGet kwargs attr with
    | some cooked => do
      let v ← f.serialize cooked
      let res ← createLoop rest (assocPop kwargs attr)
      .ok (f.name :: res.1, v :: res.2.1, res.2.2)
    | none =>
      if f.default = .pnone ∧ f.allow_none = false then createLoop rest kwargs
      else do
        let v ← f.serialize f.default
        let res ← createLoop rest kwargs
        .ok (f.name :: res.1, v :: res.2.1, res.2.2)

/-- The rowid sqlite assigns to a fresh insert into the model's table:
one more than the largest id present. -/
def nextRowId (db : DBTable) : Int :=
  (db.foldl (fun m row =>
    match assocGet row "id" with
    | some (.vint i) => max m i
    | _ => m) 0) + 1

/-- Model.create (base.py lines 474-494): run the field loop, reject any
leftover kwargs with TypeError, then execute a single INSERT and construct
the instance from the generated key. Returns the outcome (the reference of
the created instance), the in-memory state, the table, and the statements
executed during the call. -/
def Model.create (table : String) (fields : List (String × Field))
    (kwargs : List (String × PyObj)) (st : MState) (db : DBTable) :
    Except PyErr Nat × MState × DBTable × List (String × List PyVal) :=
  match createLoop fields kwargs with
  | .error e => (.error e, st, db, [])
  | .ok (cols, params, kwRest) =>
    if kwRest ≠ [] then (.error .typeError, st, db, [])
    else
      let query := "INSERT INTO " ++ table ++ "(" ++ String.intercalate "," cols
        ++ ") VALUES(" ++ String.intercalate "," (cols.map (fun _ => "?")) ++ ")"
      let newId := nextRowId db
      let row := ("id", PyVal.vint newId) :: cols.zip params
      let (ref, st1) := Model.construct st newId []
      (.ok ref, st1, db ++ [row], [(query, params)])

/-- Popping one key preserves membership of bindings with other keys. -/
theorem mem_assocPop {l : List (String × PyObj)} {k a : String} {v : PyObj}
    (hmem : (k, v) ∈ l) (hne : k ≠ a) : (k, v) ∈ assocPop l a := by
  induction l with
  | nil => exact absurd hmem (List.not_mem_nil _)
  | cons p rest ih =>
    rcases List.mem_cons.mp hmem with heq | htail
    · subst heq
      simp only [assocPop]
      rw [if_neg (by simpa using hne)]
      exact List.mem_cons_self _ _
    · simp only [assocPop]
      by_cases hpa : p.1 = a
      · rw [if_pos hpa]; exact ih htail
      · rw [if_neg hpa]; exact List.mem_cons_of_mem _ (ih htail)

/-- Popping one key leaves lookups of other keys unchanged. -/
theorem assocGet_assocPop_ne {l : List (String × PyObj)} {k a : String}
    (hne : a ≠ k) : assocGet (assocPop l a) k = assocGet l k := by
  induction l with
  | nil => rfl
  | cons p rest ih =>
    by_cases hpa : p.1 = a
    · have hpk : ¬ p.1 = k := fun h => hne (hpa.symm.trans h)
      simp only [assocPop, assocGet]
      rw [if_pos hpa, if_neg hpk]
      exact ih
    · simp only [assocPop, assocGet]
      rw [if_neg hpa]
      by_cases hpk : p.1 = k
      · simp only [assocGet]
        rw [if_pos hpk, if_pos hpk]
      · simp only [assocGet]
        rw [if_neg hpk, if_neg hpk]
        exact ih

/-- The create loop either raises TypeError or leaves an unmatched kwarg in
the leftovers, when some supplied name matches no declared accessor. -/
theorem createLoop_unknown {k : String} {v : PyObj} :
    ∀ (fields : List (String × Field)) (kwargs : List (String × PyObj)),
      (k, v) ∈ kwargs → (∀ p ∈ fields, p.1 ≠ k) →
      createLoop fields kwargs = .error .typeError ∨
      ∃ cols params kw, createLoop fields kwargs = .ok (cols, params, kw) ∧ (k, v) ∈ kw
  | [], kwargs, hk, _ => .inr ⟨[], [], kwargs, rfl, hk⟩
  | (attr, f) :: rest, kwargs, hk, hnot => by
    have hattr : attr ≠ k := hnot (attr, f) (List.mem_cons_self _ _)
    have hnot' : ∀ p ∈ rest, p.1 ≠ k := fun p hp => hnot p (List.mem_cons_of_mem _ hp)
    cases hget : assocGet kwargs attr with
    | some cooked =>
      cases hs : f.serialize cooked with
      | error e =>
        left
        have he := Field.serialize_error hs
        subst he
        simp only [createLoop, hget, hs]
        rfl
      | ok v' =>
        have hk' : (k, v) ∈ assocPop kwargs attr :=
          mem_assocPop hk (fun h => hattr h.symm)
        rcases createLoop_unknown rest (assocPop kwargs attr) hk' hnot' with herr | ⟨c, p, kw, hok, hin⟩
        · left
          simp only [createLoop, hget, hs, herr]
          rfl
        · right
          refine ⟨f.name :: c, v' :: p, kw, ?_, hin⟩
          simp only [createLoop, hget, hs, hok]
          rfl
    | none =>
      by_cases hskip : f.default = .pnone ∧ f.allow_none = false
      · rcases createLoop_unknown rest kwargs hk hnot' with herr | ⟨c, p, kw, hok, hin⟩
        · left
          simp only [createLoop, hget]
          rw [if_pos hskip]
          exact herr
        · right
          refine ⟨c, p, kw, ?_, hin⟩
          simp only [createLoop, hget]
          rw [if_pos hskip]
          exact hok
      · cases hs : f.serialize f.default with
        | error e =>
          left
          have he := Field.serialize_error hs
          subst he
          simp only [createLoop, hget]
          rw [if_neg hskip]
          simp only [hs]
          rfl
        | ok v' =>
          rcases createLoop_unknown rest kwargs hk hnot' with herr | ⟨c, p, kw, hok, hin⟩
          · left
            simp only [createLoop, hget]
            rw [if_neg hskip]
            simp only [hs, herr]
            rfl
          · right
            refine ⟨f.name :: c, v' :: p, kw, ?_, hin⟩
            simp only [createLoop, hget]
            rw [if_neg hskip]
            simp only [hs, hok]
            rfl

/-- Claim C6: a create call supplying a field name that matches no declared
accessor raises TypeError, and no statement is issued: the storage state
(table and statement log) and in-memory state are unchanged. -/
theorem create_rejects_unknown_kwarg (table : String)
    (fields : List (String × Field)) (kwargs : List (String × PyObj))
    (st : MState) (db : DBTable) (k : String) (v : PyObj)
    (hk : (k, v) ∈ kwargs) (hnot : ∀ p ∈ fields, p.1 ≠ k) :
    Model.create table fields kwargs st db = (.error .typeError, st, db, []) := by
  rcases createLoop_unknown fields kwargs hk hnot with herr | ⟨c, p, kw, hok, hin⟩
  · simp [Model.create, herr]
  · have hne : kw ≠ [] := List.ne_nil_of_mem hin
    simp [Model.create, hok, hne]

/-- Witness for create_rejects_unknown_kwarg: the test_default scenario
Taxon.create(not_a_kwarg=1, name="Veratalpa"). -/
theorem create_rejects_unknown_kwarg_witness :
    Model.create "taxon"
      [("name", ⟨"name", .tstr, false, .pnone⟩)]
      [("not_a_kwarg", .pint 1), ("name", .pstr "Veratalpa")]
      ⟨[], [], 0⟩ []
      = (.error .typeError, ⟨[], [], 0⟩, [], []) :=
  create_rejects_unknown_kwarg "taxon" _ _ _ _ "not_a_kwarg" (.pint 1)
    (by decide) (by decide)

/-- The create loop raises TypeError when the kwargs explicitly supply None
for a declared field that disallows None (field names are the keys of the
clorm_fields dict, hence distinct). -/
theorem createLoop_explicit_null {attr : String} {f : Field} :
    ∀ (fields : List (String × Field)) (kwargs : List (String × PyObj)),
      (attr, f) ∈ fields → (fields.map Prod.fst).Nodup →
      assocGet kwargs attr = some .pnone → f.allow_none = false →
      createLoop fields kwargs = .error .typeError
  | [], _, hmem, _, _, _ => absurd hmem (List.not_mem_nil _)
  | (a, g) :: rest, kwargs, hmem, hnodup, hnull, han => by
    rcases List.mem_cons.mp hmem with heq | htail
    · injection heq with ha hf
      subst ha
      subst hf
      have hser : f.serialize .pnone = .error .typeError := by
        simp [Field.serialize, isinstance_pnone, han]
      simp only [createLoop, hnull, hser]
      rfl
    · have hane : a ≠ attr := by
        intro h
        subst h
        have hnin : a ∉ rest.map Prod.fst := (List.nodup_cons.mp (by simpa using hnodup)).1
        exact hnin (List.mem_map.mpr ⟨(a, f), htail, rfl⟩)
      have hnodup' : (rest.map Prod.fst).Nodup :=
        (List.nodup_cons.mp (by simpa using hnodup)).2
      cases hget : assocGet kwargs a with
      | some cooked =>
        cases hs : g.serialize cooked with
        | error e =>
          have he := Field.serialize_error hs
          subst he
          simp only [createLoop, hget, hs]
          rfl
        | ok v' =>
          have hnull' : assocGet (assocPop kwargs a) attr = some .pnone :=
            (assocGet_assocPop_ne hane).trans hnull
          have hrec := createLoop_explicit_null rest (assocPop kwargs a) htail hnodup' hnull' han
          simp only [createLoop, hget, hs, hrec]
          rfl
      | none =>
        by_cases hskip : g.default = .pnone ∧ g.allow_none = false
        · have hrec := createLoop_explicit_null rest kwargs htail hnodup' hnull han
          simp only [createLoop, hget]
          rw [if_pos hskip]
          exact hrec
        · cases hs : g.serialize g.default with
          | error e =>
            have he := Field.serialize_error hs
            subst he
            simp only [createLoop, hget]
            rw [if_neg hskip]
            simp only [hs]
            rfl
          | ok v' =>
            have hrec := createLoop_explicit_null rest kwargs htail hnodup' hnull han
            simp only [createLoop, hget]
            rw [if_neg hskip]
            simp only [hs, hrec]
            rfl

/-- Claim C10: explicitly supplying None for a non-nullable field makes
create raise TypeError from serialization with no statement issued and
storage unchanged; whereas omitting a defaultless non-nullable field merely
skips its column, shown on the concrete Taxon schema: create with only a
name issues an insert over the name and status columns, the is_extinct
column being left for the storage layer to decide. -/
theorem create_explicit_null_vs_omitted :
    (∀ (table : String) (fields : List (String × Field))
        (kwargs : List (String × PyObj)) (st : MState) (db : DBTable)
        (attr : String) (f : Field),
      (attr, f) ∈ fields → (fields.map Prod.fst).Nodup →
      assocGet kwargs attr = some .pnone → f.allow_none = false →
      Model.create table fields kwargs st db = (.error .typeError, st, db, []))
    ∧ Model.create "taxon"
        [("name", ⟨"name", .tstr, false, .pnone⟩),
         ("extinct", ⟨"is_extinct", .tbool, false, .pnone⟩),
         ("status", ⟨"status", .tenum, true, .pnone⟩)]
        [("name", .pstr "Veratalpa")] ⟨[], [], 0⟩ []
      = (.ok 0, ⟨[(0, [("id", .vint 1)])], [(1, 0)], 1⟩,
         [[("id", .vint 1), ("name", .vstr "Veratalpa"), ("status", .vnone)]],
         [("INSERT INTO taxon(name,status) VALUES(?,?)",
           [.vstr "Veratalpa", .vnone])]) := by
  constructor
  · intro table fields kwargs st db attr f hmem hnodup hnull han
    have hloop := createLoop_explicit_null fields kwargs hmem hnodup hnull han
    simp [Model.create, hloop]
  · rfl

/-- Witness for the hypothesis-bearing half of
create_explicit_null_vs_omitted: Taxon.create(name=..., extinct=None). -/
theorem create_explicit_null_witness :
    Model.create "taxon"
      [("name", ⟨"name", .tstr, false, .pnone⟩),
       ("extinct", ⟨"is_extinct", .tbool, false, .pnone⟩)]
      [("name", .pstr "Talpa"), ("extinct", .pnone)] ⟨[], [], 0⟩ []
      = (.error .typeError, ⟨[], [], 0⟩, [], []) :=
  create_explicit_null_vs_omitted.1 "taxon" _ _ _ _ "extinct"
    ⟨"is_extinct", .tbool, false, .pnone⟩ (by decide) (by decide) (by decide) rfl

/-- Atomic (non-union) declared type expressions, as Field.get_resolved_type
sees them once forward references are resolved: a plain class (a Python
type object), NoneType, typing.Self, the Id NewType, or any other
non-union, non-class type expression (for example a generic alias),
carried with a tag. The typing module flattens nested unions, so union
arguments are always atoms. -/
inductive TypeAtom where
  | classT (t : PyType)
  | noneType
  | selfT
  | idT
  | otherT (tag : String)
deriving Repr, DecidableEq

/-- `isinstance(arg, type)` on atoms: class objects, NoneType included, are
types; Self, Id and generic aliases are not. -/
def TypeAtom.isClass : TypeAtom → Bool
  | .classT _ => true
  | .noneType => true
  | _ => false

/-- A declared type expression: an atom or a (flattened) union of atoms. -/
inductive TypeExpr where
  | atom (a : TypeAtom)
  | unionT (args : List TypeAtom)
deriving Repr, DecidableEq

/-- Field.get_resolved_type (base.py lines 339-359) on an already resolved
declared type expression, parameterized by the owning model class (the
meaning of Self). The union branch mirrors the source exactly: when
NoneType is among the union's arguments, the single non-NoneType argument
is extracted by tuple unpacking of a filtering generator — which raises
ValueError when the union has any number of non-null alternatives other
than one — and resolve_type_fallback (which raises TypeError) handles every
remaining shape. -/
def Field.get_resolved_type (modelCls : TypeAtom) (arg : TypeExpr) :
    Except PyErr (TypeExpr × TypeExpr × Bool) :=
  match arg with
  | .atom a =>
    if a.isClass then .ok (.atom a, .atom a, false)
    else if a = .selfT then .ok (.atom modelCls, .atom modelCls, false)
    else if a = .idT then .ok (.atom .idT, .atom (.classT .tint), false)
    else .error .typeError
  | .unionT args =>
    if .noneType ∈ args then
      match args.filter (fun a => a != .noneType) with
      | [a] =>
        if a.isClass then .ok (.unionT [a, .noneType], .atom a, true)
        else if a = .selfT then .ok (.unionT [modelCls, .noneType], .atom modelCls, true)
        else .error .typeError
      | _ => .error .valueError
    else .error .typeError

/-- Claim C4 (counterexample): for the declared union int or str or null —
a union containing null with two non-null alternatives — type resolution
does fail fast, but with a ValueError raised by the tuple unpacking, not
with a TypeError as the claim states. -/
theorem resolve_union_valueerror_not_typeerror :
    Field.get_resolved_type (.classT .tmodel)
        (.unionT [.classT .tint, .classT .tstr, .noneType])
      = .error .valueError
    ∧ Field.get_resolved_type (.classT .tmodel)
        (.unionT [.classT .tint, .classT .tstr, .noneType])
      ≠ .error .typeError :=
  ⟨rfl, fun h => absurd (Except.error.inj h) (by decide)⟩

/-- Claim C4 as amended: for a declared union containing null, the exact
optional shape with one non-null alternative resolves — a class resolves to
itself and Self to the owning model class, in both cases with allow_none
set — and a union whose number of non-null alternatives is not one fails
fast, with a ValueError from tuple unpacking rather than a TypeError. -/
theorem resolve_optional_shape (modelCls : TypeAtom) (args : List TypeAtom)
    (hnull : .noneType ∈ args) :
    (∀ t, args.filter (fun a => a != .noneType) = [.classT t] →
      Field.get_resolved_type modelCls (.unionT args)
        = .ok (.unionT [.classT t, .noneType], .atom (.classT t), true))
    ∧ (args.filter (fun a => a != .noneType) = [.selfT] →
      Field.get_resolved_type modelCls (.unionT args)
        = .ok (.unionT [modelCls, .noneType], .atom modelCls, true))
    ∧ ((args.filter (fun a => a != .noneType)).length ≠ 1 →
      Field.get_resolved_type modelCls (.unionT args) = .error .valueError) := by
  refine ⟨?_, ?_, ?_⟩
  · intro t hfilter
    simp [Field.get_resolved_type, TypeAtom.isClass, hnull, hfilter]
  · intro hfilter
    simp [Field.get_resolved_type, TypeAtom.isClass, hnull, hfilter]
  · intro hlen
    simp only [Field.get_resolved_type, hnull, if_true]
    match hfilter : args.filter (fun a => a != .noneType) with
    | [] => rw [hfilter]
    | [a] => exact absurd (by simp [hfilter]) hlen
    | a :: b :: rest => rw [hfilter]

/-- Witness for resolve_optional_shape: the declared types Status or null
(resolving to the enum class with allow_none), Self or null, and the
failing int or str or null. -/
theorem resolve_optional_shape_witness :
    Field.get_resolved_type (.classT .tmodel) (.unionT [.classT .tenum, .noneType])
      = .ok (.unionT [.classT .tenum, .noneType], .atom (.classT .tenum), true)
    ∧ Field.get_resolved_type (.classT .tmodel) (.unionT [.selfT, .noneType])
      = .ok (.unionT [.classT .tmodel, .noneType], .atom (.classT .tmodel), true)
    ∧ Field.get_resolved_type (.classT .tmodel)
        (.unionT [.classT .tint, .classT .tstr, .noneType])
      = .error .valueError :=
  ⟨(resolve_optional_shape (.classT .tmodel) [.classT .tenum, .noneType]
      (by decide)).1 .tenum (by decide),
   (resolve_optional_shape (.classT .tmodel) [.selfT, .noneType]
      (by decide)).2.1 (by decide),
   (resolve_optional_shape (.classT .tmodel)
      [.classT .tint, .classT .tstr, .noneType] (by decide)).2.2 (by decide)⟩

/-- Decimal digit test on characters. -/
def isDig (c : Char) : Bool := 48 ≤ c.toNat && c.toNat ≤ 57

/-- The character of a decimal digit. -/
def digChar (d : Nat) : Char := Char.ofNat (48 + d)

/-- The decimal value of a digit character. -/
def charVal (c : Char) : Nat := c.toNat - 48

/-- Fuel-bounded base-10 expansion, most significant digit first; any fuel
of at least n produces the digits of n (with no leading zeros, and none at
all for zero). -/
def natDigitsAux : Nat → Nat → List Nat
  | 0, _ => []
  | fuel + 1, n => if n = 0 then [] else natDigitsAux fuel (n / 10) ++ [n % 10]

/-- The decimal digits of a natural number, most significant first. -/
def natRenderDigits (n : Nat) : List Nat :=
  if n = 0 then [0] else natDigitsAux n n

/-- The decimal rendering of a natural number. -/
def natRender (n : Nat) : List Char := (natRenderDigits n).map digChar

/-- The decimal rendering of an integer, as json.dumps renders it. -/
def intRender (i : Int) : List Char :=
  if i < 0 then '-' :: natRender i.natAbs else natRender i.toNat

/-- The body of a JSON array of integers: the elements rendered in decimal
and joined by comma-space, json.dumps's default list separator. -/
def jsonBody : List Int → List Char
  | [] => []
  | [i] => intRender i
  | i :: rest => intRender i ++ ',' :: ' ' :: jsonBody rest

/-- json.dumps restricted to the values ADTField.serialize encodes: a list
of integers becomes a bracketed, comma-space separated decimal array. -/
def jsonDumps (l : List Int) : String :=
  String.mk ('[' :: jsonBody l ++ [']'])

/-- Digit-consuming accumulator loop of the integer parser. -/
def parseNatAux : List Char → Nat → Nat × List Char
  | [], acc => (acc, [])
  | c :: cs, acc =>
    if isDig c then parseNatAux cs (acc * 10 + charVal c) else (acc, c :: cs)

/-- Parse a decimal natural number from the front of the input; fails when
the input does not start with a digit. -/
def parseNat : List Char → Option (Nat × List Char)
  | [] => none
  | c :: cs => if isDig c then some (parseNatAux (c :: cs) 0) else none

/-- Parse a decimal integer (optional leading minus sign). -/
def parseInt : List Char → Option (Int × List Char)
  | [] => none
  | c :: cs =>
    if c = '-' then (parseNat cs).map (fun p => (-(p.1 : Int), p.2))
    else (parseNat (c :: cs)).map (fun p => ((p.1 : Int), p.2))

/-- Parse the comma-space separated items of a JSON integer array up to the
closing bracket, with fuel bounding the recursion depth. -/
def parseItems : Nat → List Char → Option (List Int)
  | 0, _ => none
  | fuel + 1, cs =>
    match parseInt cs with
    | none => none
    | some (i, rest) =>
      if rest = [']'] then some [i]
      else
        match rest with
        | c1 :: c2 :: rest2 =>
          if c1 = ',' ∧ c2 = ' ' then (parseItems fuel rest2).map (fun l => i :: l)
          else none
        | _ => none

/-- json.loads restricted to the grammar jsonDumps emits: a JSON array of
decimal integers. Malformed input yields none, modelling the ValueError
json.loads raises. -/
def jsonLoads (s : String) : Option (List Int) :=
  match s.data with
  | [] => none
  | c :: rest =>
    if c = '[' then (if rest = [']'] then some [] else parseItems rest.length rest)
    else none

/-- The ADT dataclass of tests/test_clorm.py (lines 172-181): an algebraic
value carrying an int, serializing to that int. -/
structure ADT where
  value : Int
deriving Repr, DecidableEq

/-- ADT.serialize (test_clorm.py lines 180-181). -/
def ADT.serialize (a : ADT) : Int := a.value

/-- ADT.unserialize (test_clorm.py lines 176-178). -/
def ADT.unserialize (v : Int) : ADT := ⟨v⟩

/-- ADTField.serialize (test_clorm.py lines 204-214): a tuple is first
turned into a list, so both are modelled by some list; a non-empty list
serializes to the JSON array of each element's own serialized form, an
empty list and None both serialize to None. Inputs of any other Python
type, which raise TypeError in the source, are not representable here. -/
def ADTField.serialize (value : Option (List ADT)) : Except PyErr PyVal :=
  match value with
  | some l => if l ≠ [] then .ok (.vstr (jsonDumps (l.map ADT.serialize))) else .ok .vnone
  | none => .ok .vnone

/-- ADTField.deserialize (test_clorm.py lines 190-202): a non-empty raw
string is parsed as a JSON array, each element unserialized, with the
result memoized in the field's `_adt_cache` keyed by the exact raw string;
any other raw value — None included — yields the empty sequence. The result
carries the sequence, the cache after the call, and the number of
json.loads invocations performed (instrumentation for the memoization
property: 1 when the string was parsed, 0 on a cache hit or non-string). -/
def ADTField.deserialize (cache : List (String × List ADT)) (raw : PyVal) :
    Except PyErr (List ADT × List (String × List ADT) × Nat) :=
  match raw with
  | .vstr s =>
    if s ≠ "" then
      match assocGet cache s with
      | some tags => .ok (tags, cache, 0)
      | none =>
        match jsonLoads s with
        | none => .error .valueError
        | some ints =>
          let tags := ints.map ADT.unserialize
          .ok (tags, assocSet cache s tags, 1)
    else .ok ([], cache, 0)
  | _ => .ok ([], cache, 0)

/-- A character list whose head, if any, is not a digit (so a decimal
number rendered in front of it parses back without absorbing it). -/
def headNotDig : List Char → Bool
  | [] => true
  | c :: _ => !(isDig c)

/-- Digit characters are digits. -/
theorem isDig_digChar {d : Nat} (h : d < 10) : isDig (digChar d) = true := by
  interval_cases d <;> decide

/-- Digit characters decode to their digit. -/
theorem charVal_digChar {d : Nat} (h : d < 10) : charVal (digChar d) = d := by
  interval_cases d <;> decide

/-- Digit characters are not the minus sign. -/
theorem digChar_ne_dash {d : Nat} (h : d < 10) : ¬ digChar d = '-' := by
  interval_cases d <;> decide

/-- Every digit the expansion produces is below the base. -/
theorem natDigitsAux_lt : ∀ (fuel n : Nat), ∀ d ∈ natDigitsAux fuel n, d < 10 := by
  intro fuel
  induction fuel with
  | zero => intro n d hd; exact absurd hd (List.not_mem_nil _)
  | succ f ih =>
    intro n d hd
    simp only [natDigitsAux] at hd
    by_cases hn : n = 0
    · rw [if_pos hn] at hd; exact absurd hd (List.not_mem_nil _)
    · rw [if_neg hn] at hd
      rcases List.mem_append.mp hd with hmem | hlast
      · exact ih (n / 10) d hmem
      · have hd10 : d = n % 10 := by simpa using hlast
        subst hd10
        exact Nat.mod_lt _ (by norm_num)

/-- Folding the digits most-significant-first recovers the number, shifting
any prior accumulator past them. -/
theorem foldl_natDigitsAux : ∀ (fuel n a : Nat), n ≤ fuel →
    List.foldl (fun acc d => acc * 10 + d) a (natDigitsAux fuel n)
      = a * 10 ^ (natDigitsAux fuel n).length + n := by
  intro fuel
  induction fuel with
  | zero =>
    intro n a hn
    have hn0 : n = 0 := Nat.le_zero.mp hn
    subst hn0
    simp [natDigitsAux]
  | succ f ih =>
    intro n a hn
    by_cases hn0 : n = 0
    · subst hn0; simp [natDigitsAux]
    · have hdiv : n / 10 ≤ f := by omega
      simp only [natDigitsAux, if_neg hn0, List.foldl_append, List.foldl_cons,
        List.foldl_nil, List.length_append, List.length_cons, List.length_nil]
      rw [ih (n / 10) a hdiv]
      have h1 : (n / 10) * 10 + n % 10 = n := by omega
      calc (a * 10 ^ (natDigitsAux f (n / 10)).length + n / 10) * 10 + n % 10
          = a * (10 ^ (natDigitsAux f (n / 10)).length * 10) + ((n / 10) * 10 + n % 10) := by
            ring
        _ = a * 10 ^ ((natDigitsAux f (n / 10)).length + (0 + 1)) + n := by
            rw [h1, Nat.zero_add, pow_succ]

/-- Every digit of the rendering is below the base. -/
theorem natRenderDigits_lt (n : Nat) : ∀ d ∈ natRenderDigits n, d < 10 := by
  intro d hd
  by_cases hn : n = 0
  · subst hn
    have hd0 : d = 0 := by simpa [natRenderDigits] using hd
    subst hd0; norm_num
  · exact natDigitsAux_lt n n d (by simpa [natRenderDigits, hn] using hd)

/-- The rendering is never empty. -/
theorem natRenderDigits_ne_nil (n : Nat) : natRenderDigits n ≠ [] := by
  by_cases hn : n = 0
  · subst hn; simp [natRenderDigits]
  · simp only [natRenderDigits, if_neg hn]
    cases n with
    | zero => exact absurd rfl hn
    | succ m =>
      simp only [natDigitsAux, if_neg hn]
      simp

/-- Folding the rendering from zero recovers the number. -/
theorem foldl_natRenderDigits (n : Nat) :
    List.foldl (fun a d => a * 10 + d) 0 (natRenderDigits n) = n := by
  by_cases hn : n = 0
  · subst hn; rfl
  · simp only [natRenderDigits, if_neg hn]
    simpa using foldl_natDigitsAux n n 0 le_rfl

/-- The digit loop consumes exactly a rendered block of digits, folding
them onto the accumulator, and stops at a non-digit. -/
theorem parseNatAux_spec : ∀ (D : List Nat) (rest : List Char) (acc : Nat),
    (∀ d ∈ D, d < 10) → headNotDig rest = true →
    parseNatAux (D.map digChar ++ rest) acc
      = (List.foldl (fun a d => a * 10 + d) acc D, rest)
  | [], rest, acc, _, hrest => by
    cases rest with
    | nil => rfl
    | cons c cs =>
      have hc : isDig c = false := by simpa [headNotDig] using hrest
      simp [parseNatAux, hc]
  | d :: D', rest, acc, hD, hrest => by
    have hd : d < 10 := hD d (List.mem_cons_self _ _)
    simp only [List.map_cons, List.cons_append, parseNatAux, isDig_digChar hd,
      if_true, charVal_digChar hd, List.foldl_cons]
    exact parseNatAux_spec D' rest (acc * 10 + d)
      (fun x hx => hD x (List.mem_cons_of_mem _ hx)) hrest

/-- Parsing a rendered natural in front of a non-digit remainder yields
that natural and the remainder. -/
theorem parseNat_render (n : Nat) (rest : List Char)
    (hrest : headNotDig rest = true) :
    parseNat (natRender n ++ rest) = some (n, rest) := by
  cases hD : natRenderDigits n with
  | nil => exact absurd hD (natRenderDigits_ne_nil n)
  | cons d ds =>
    have hd : d < 10 := natRenderDigits_lt n d (hD ▸ List.mem_cons_self _ _)
    have hspec := parseNatAux_spec (d :: ds) rest 0
      (fun x hx => natRenderDigits_lt n x (hD ▸ hx)) hrest
    simp only [List.map_cons, List.cons_append] at hspec
    simp only [natRender, hD, List.map_cons, List.cons_append, parseNat,
      isDig_digChar hd, if_true, hspec]
    have hval : List.foldl (fun a d => a * 10 + d) 0 (d :: ds) = n := by
      rw [← hD]; exact foldl_natRenderDigits n
    rw [hval]

/-- Parsing a rendered integer in front of a non-digit remainder yields
that integer and the remainder. -/
theorem parseInt_render (i : Int) (rest : List Char)
    (hrest : headNotDig rest = true) :
    parseInt (intRender i ++ rest) = some (i, rest) := by
  by_cases hneg : i < 0
  · have habs : -(i.natAbs : Int) = i := by omega
    simp [intRender, if_pos hneg, parseInt,
      parseNat_render i.natAbs rest hrest, habs, abs_of_neg hneg]
  · cases hD : natRenderDigits i.toNat with
    | nil => exact absurd hD (natRenderDigits_ne_nil _)
    | cons d ds =>
      have hd : d < 10 := natRenderDigits_lt _ d (hD ▸ List.mem_cons_self _ _)
      have hre : digChar d :: (List.map digChar ds ++ rest)
          = natRender i.toNat ++ rest := by
        simp [natRender, hD]
      simp only [intRender, if_neg hneg, natRender, hD, List.map_cons,
        List.cons_append, parseInt, if_neg (digChar_ne_dash hd)]
      rw [hre, parseNat_render i.toNat rest hrest, Option.map_some']
      have htn : ((i.toNat : Nat) : Int) = i := Int.toNat_of_nonneg (not_lt.mp hneg)
      rw [htn]

/-- A rendered integer is never the empty character list. -/
theorem intRender_ne_nil (i : Int) : intRender i ≠ [] := by
  by_cases hneg : i < 0
  · simp [intRender, hneg]
  · simp only [intRender, if_neg hneg, natRender]
    intro h
    exact natRenderDigits_ne_nil i.toNat (List.map_eq_nil_iff.mp h)

/-- The body of a non-empty array is non-empty. -/
theorem jsonBody_ne_nil : ∀ (x : Int) (xs : List Int), jsonBody (x :: xs) ≠ [] := by
  intro x xs
  cases xs with
  | nil => exact intRender_ne_nil x
  | cons y ys =>
    simp only [jsonBody]
    intro h
    rcases List.append_eq_nil.mp h with ⟨h1, _⟩
    exact intRender_ne_nil x h1

/-- The rendered body together with the closing bracket is at least as long
as the element list. -/
theorem jsonBody_length : ∀ (l : List Int), l.length ≤ (jsonBody l).length + 1
  | [] => by simp
  | [i] => by
    have h1 : 1 ≤ (intRender i).length :=
      List.length_pos.mpr (intRender_ne_nil i)
    simp only [jsonBody, List.length_singleton]
    omega
  | i :: j :: t => by
    have h1 : 1 ≤ (intRender i).length :=
      List.length_pos.mpr (intRender_ne_nil i)
    have h2 := jsonBody_length (j :: t)
    simp only [jsonBody, List.length_append, List.length_cons] at h2 ⊢
    omega

/-- The item parser recovers a non-empty element list from its rendered
body followed by the closing bracket, given fuel at least the list length. -/
theorem parseItems_body : ∀ (l : List Int) (fuel : Nat), l ≠ [] →
    l.length ≤ fuel → parseItems fuel (jsonBody l ++ [']']) = some l
  | [], _, h, _ => absurd rfl h
  | [i], fuel, _, hf => by
    cases fuel with
    | zero => simp at hf
    | succ f =>
      simp [jsonBody, parseItems, parseInt_render i [']'] rfl]
  | i :: j :: t, fuel, _, hf => by
    cases fuel with
    | zero => simp at hf
    | succ f =>
      have hf' : (j :: t).length ≤ f := by
        simp only [List.length_cons] at hf ⊢
        omega
      have hrec := parseItems_body (j :: t) f (by simp) hf'
      simp only [jsonBody, List.cons_append, List.append_assoc]
      simp [parseItems,
        parseInt_render i (',' :: ' ' :: (jsonBody (j :: t) ++ [']'])) rfl, hrec]

/-- json.loads inverts json.dumps on every integer list. -/
theorem jsonLoads_dumps (l : List Int) : jsonLoads (jsonDumps l) = some l := by
  cases l with
  | nil => rfl
  | cons x xs =>
    have hne : jsonBody (x :: xs) ≠ [] := jsonBody_ne_nil x xs
    have hlen := jsonBody_length (x :: xs)
    have hif : ¬ (jsonBody (x :: xs) ++ [']'] = [']']) := by
      intro h
      have hl := congrArg List.length h
      simp only [List.length_append, List.length_singleton] at hl
      exact hne (List.eq_nil_of_length_eq_zero (by omega))
    show (if jsonBody (x :: xs) ++ [']'] = [']'] then some []
      else parseItems (jsonBody (x :: xs) ++ [']']).length (jsonBody (x :: xs) ++ [']']))
      = some (x :: xs)
    rw [if_neg hif]
    exact parseItems_body (x :: xs) _ (by simp)
      (by simpa [List.length_append] using hlen)

/-- A dumped array is never the empty string. -/
theorem jsonDumps_ne_empty (l : List Int) : jsonDumps l ≠ "" := by
  intro h
  have hdata := congrArg String.data h
  simp [jsonDumps] at hdata

/-- Unserializing a serialized algebraic value gives it back. -/
theorem adt_roundtrip (l : List ADT) :
    (l.map ADT.serialize).map ADT.unserialize = l := by
  rw [List.map_map]
  have hcomp : (ADT.unserialize ∘ ADT.serialize) = id := funext (fun a => rfl)
  rw [hcomp, List.map_id]

/-- Claim C7: the sequence-of-algebraic-value codec serializes the empty
sequence and None to null and a non-empty sequence to the JSON array of the
elements' own serialized forms; deserializing null or the empty raw string
yields the empty sequence; deserializing what was serialized recovers the
sequence element for element, parsing once and memoizing under the exact
raw string; and a second deserialization of the same raw string returns the
memoized sequence from the cache without parsing again. -/
theorem adtfield_codec :
    (ADTField.serialize (some []) = .ok .vnone ∧ ADTField.serialize none = .ok .vnone)
    ∧ (∀ l : List ADT, l ≠ [] →
        ADTField.serialize (some l) = .ok (.vstr (jsonDumps (l.map ADT.serialize))))
    ∧ (∀ cache, ADTField.deserialize cache .vnone = .ok ([], cache, 0)
        ∧ ADTField.deserialize cache (.vstr "") = .ok ([], cache, 0))
    ∧ (∀ l : List ADT, l ≠ [] →
        ADTField.deserialize [] (.vstr (jsonDumps (l.map ADT.serialize)))
          = .ok (l, [(jsonDumps (l.map ADT.serialize), l)], 1)
        ∧ ADTField.deserialize [(jsonDumps (l.map ADT.serialize), l)]
            (.vstr (jsonDumps (l.map ADT.serialize)))
          = .ok (l, [(jsonDumps (l.map ADT.serialize), l)], 0)) := by
  refine ⟨⟨rfl, rfl⟩, ?_, ?_, ?_⟩
  · intro l hl
    simp [ADTField.serialize, hl]
  · intro cache
    exact ⟨rfl, rfl⟩
  · intro l hl
    have hs := jsonDumps_ne_empty (l.map ADT.serialize)
    have hcomp : List.map (ADT.unserialize ∘ ADT.serialize) l = l := by
      rw [show (ADT.unserialize ∘ ADT.serialize) = id from funext (fun a => rfl),
        List.map_id]
    constructor
    · simp [ADTField.deserialize, hs, assocGet, jsonLoads_dumps, hcomp, assocSet]
    · simp [ADTField.deserialize, hs, assocGet]

/-- Witness for adtfield_codec: the two-element sequence of algebraic
values 1 and 2 serializes to the JSON text with two members, round-trips,
and is memoized for the second deserialization. -/
theorem adtfield_codec_witness :
    ADTField.serialize (some [⟨1⟩, ⟨2⟩]) = .ok (.vstr "[1, 2]")
    ∧ ADTField.deserialize [] (.vstr "[1, 2]")
      = .ok ([⟨1⟩, ⟨2⟩], [("[1, 2]", [⟨1⟩, ⟨2⟩])], 1)
    ∧ ADTField.deserialize [("[1, 2]", [⟨1⟩, ⟨2⟩])] (.vstr "[1, 2]")
      = .ok ([⟨1⟩, ⟨2⟩], [("[1, 2]", [⟨1⟩, ⟨2⟩])], 0) :=
  ⟨adtfield_codec.2.1 [⟨1⟩, ⟨2⟩] (by decide),
   (adtfield_codec.2.2.2 [⟨1⟩, ⟨2⟩] (by decide)).1,
   (adtfield_codec.2.2.2 [⟨1⟩, ⟨2⟩] (by decide)).2⟩

end Clorm
